import Mathlib

/-
  Verification development for the trade ingestion service
  (src/TradeIngestionServiceCompleted.py).

  The Python module is shallowly embedded: candidate trade dicts become a
  structure of optional loosely-typed values, the validator becomes an
  `Except`-valued function (a Python `TypeError` raised by a comparison is
  modelled as `.error`), and the producer loop becomes a step function on an
  explicit service state.  Python floats are idealised as rationals.
-/

namespace TradeIngestion

/-- Scalar Python values that can appear in a candidate trade dict produced by
a (possibly noisy) source adapter: int, float (idealised as a rational),
bool, str, and None. -/
inductive PyValue where
  | vint (n : ℤ)
  | vfloat (q : ℚ)
  | vbool (b : Bool)
  | vstr (s : String)
  | vnone
  deriving DecidableEq

/-- Python evaluation of `v <= 0`.  Ints, floats and bools (which are ints in
Python: True = 1, False = 0) compare numerically; comparing a str or None
with an int raises `TypeError`. -/
def pyLeZero : PyValue → Except String Bool
  | .vint n => .ok (decide (n ≤ 0))
  | .vfloat q => .ok (decide (q ≤ 0))
  | .vbool b => .ok (!b)
  | .vstr _ => .error "TypeError"
  | .vnone => .error "TypeError"

/-- Python membership `v in l` for a collection of strings (set or list
membership both test `==`): only a str can equal a str, other scalar values
are simply not members (no exception). -/
def pyMemStr (v : PyValue) (l : List String) : Bool :=
  match v with
  | .vstr s => l.contains s
  | _ => false

/-- A candidate trade: the Python dict restricted to the keys the program
reads, each key optionally present.  `trade_id` is absent until the service
assigns it. -/
structure Candidate where
  symbol : Option PyValue := Option.none
  side : Option PyValue := Option.none
  quantity : Option PyValue := Option.none
  price : Option PyValue := Option.none
  timestamp : Option PyValue := Option.none
  status : Option PyValue := Option.none
  source : Option PyValue := Option.none
  trade_id : Option PyValue := Option.none
  deriving DecidableEq

/-- VALID_SYMBOLS from the module (a set in Python; a list here, used only
for membership). -/
def VALID_SYMBOLS : List String := ["AAPL", "GOOGL", "MSFT", "TSLA", "AMZN"]

/-- The values of the TradeSide enumeration, [s.value for s in TradeSide]. -/
def TRADE_SIDE_VALUES : List String := ["Buy", "Sell"]

/-- The values of the TradeStatus enumeration. -/
def TRADE_STATUS_VALUES : List String := ["Filled", "Partial", "Canceled"]

/-- Models one Python line `'f' not in trade_data or trade_data['f'] <= 0`:
`.ok true` means the line rejects the candidate (field missing, or present
and `<= 0`); the comparison may raise. -/
def checkNonposE (field : Option PyValue) : Except String Bool :=
  match field with
  | Option.none => .ok true
  | some v => pyLeZero v

/-- Models `'f' in trade_data and trade_data['f'] in l` (true when the field
is present and a member). -/
def fieldInList (field : Option PyValue) (l : List String) : Bool :=
  match field with
  | Option.none => false
  | some v => pyMemStr v l

/-- Embedding of `TradeIngestionService._validate_trade`, line by line:
sequential checks, each `return False` on its condition, `return True` at
the end.  The quantity and price comparisons can raise `TypeError`
(propagated as `.error`); the remaining checks are pure membership or
presence tests and cannot raise. -/
def validateTrade (t : Candidate) : Except String Bool :=
  match checkNonposE t.quantity with
  | .error e => .error e
  | .ok true => .ok false
  | .ok false =>
    match checkNonposE t.price with
    | .error e => .error e
    | .ok true => .ok false
    | .ok false =>
      if fieldInList t.symbol VALID_SYMBOLS = false then .ok false
      else if fieldInList t.side TRADE_SIDE_VALUES = false then .ok false
      else if fieldInList t.status TRADE_STATUS_VALUES = false then .ok false
      else if t.timestamp.isNone then .ok false
      else if t.source.isNone then .ok false
      else .ok true

/-- The DataSource enumeration. -/
inductive DataSource where
  | SIMULATION
  | API
  | KAFKA
  deriving DecidableEq

/-- The mutable state of a TradeIngestionService instance.  The queue is the
list of records in FIFO order (put appends at the end); `runningFlag` is the
threading.Event `running`; `workerActive` is whether `producer_thread` is
not None; `spawnCount` is a ghost counter of how many worker threads have
ever been launched, used to state that no second worker is launched. -/
structure ServiceState where
  trade_queue : List Candidate
  runningFlag : Bool
  workerActive : Bool
  trade_id_counter : ℤ
  data_source : DataSource
  spawnCount : ℕ
  deriving DecidableEq

/-- State built by the body of `__init__` once the queue expression has been
evaluated to `q`: running event cleared, no producer thread, counter 0,
source defaulting to SIMULATION. -/
def initService (q : List Candidate) : ServiceState :=
  { trade_queue := q, runningFlag := false, workerActive := false,
    trade_id_counter := 0, data_source := DataSource.SIMULATION,
    spawnCount := 0 }

/-- Embedding of `__init__(self, queue=None)`.  The line
`self.trade_queue = queue if queue else queue.Queue()` evaluates its else
branch with the local parameter `queue` (which shadows the imported `queue`
module); when the argument is omitted that parameter is None, so
`queue.Queue()` is `None.Queue()` and raises AttributeError.  A supplied
Queue instance is always truthy, so that branch returns it unchanged. -/
def serviceNew (q : Option (List Candidate)) : Except String ServiceState :=
  match q with
  | some qu => .ok (initService qu)
  | Option.none => .error "AttributeError: NoneType has no attribute Queue"

/-- Embedding of `start`: if `producer_thread` is not None, return
immediately; otherwise set the running event and launch one worker thread. -/
def start (s : ServiceState) : ServiceState :=
  if s.workerActive then s
  else { s with runningFlag := true, workerActive := true,
                spawnCount := s.spawnCount + 1 }

/-- Embedding of `stop`: clear the running event, and if a producer thread
exists join it (bounded wait) and set it to None.  No branch raises. -/
def stop (s : ServiceState) : ServiceState :=
  { s with runningFlag := false, workerActive := false }

/-- The service is in the Stopped lifecycle state: running event cleared and
no producer thread. -/
def serviceStopped (s : ServiceState) : Prop :=
  s.runningFlag = false ∧ s.workerActive = false

/-- Environment input consumed by one iteration of the producer loop: in
SIMULATION mode the candidate the generator returned; in API mode the
optional result of `_fetch_from_api`; in KAFKA mode the placeholder tick. -/
inductive LoopInput where
  | sim (c : Candidate)
  | api (r : Option Candidate)
  | kafka

/-- The dict mutation `trade_data['trade_id'] = n` performed under the lock:
the candidate with its trade_id field set to the int n. -/
def stampId (c : Candidate) (n : ℤ) : Candidate :=
  { c with trade_id := some (.vint n) }

/-- The validate-assign-enqueue section of the producer loop body for a
fetched candidate: on `_validate_trade` returning True, increment the ID
counter under the lock, set `trade_data['trade_id']`, and put the record on
the queue; on False, discard ("Invalid trade discarded"); a raised exception
is caught by the loop's `except` clause (log and back off), leaving the
state unchanged. -/
def processCandidate (s : ServiceState) (c : Candidate) : ServiceState :=
  match validateTrade c with
  | .ok true =>
    { s with trade_id_counter := s.trade_id_counter + 1,
             trade_queue :=
               s.trade_queue ++ [stampId c (s.trade_id_counter + 1)] }
  | .ok false => s
  | .error _ => s

/-- One iteration of `_producer_loop`'s while body.  If the running event is
clear the loop does not run an iteration.  SIMULATION fetches a generated
candidate; API may get None (sleep and continue); KAFKA and any input not
matching the configured source only sleeps.  Sleeps and prints have no
effect on the modelled state. -/
def producerStep (s : ServiceState) (inp : LoopInput) : ServiceState :=
  if s.runningFlag = false then s
  else
    match s.data_source, inp with
    | DataSource.SIMULATION, LoopInput.sim c => processCandidate s c
    | DataSource.API, LoopInput.api (some c) => processCandidate s c
    | DataSource.API, LoopInput.api Option.none => s
    | _, _ => s

/-- A sequence of producer-loop iterations. -/
def producerRun (s : ServiceState) (inputs : List LoopInput) : ServiceState :=
  inputs.foldl producerStep s

/-- Python's round-half-to-even on an exact rational: nearest integer, ties
going to the even neighbour (the float-representation noise of the actual
binary doubles is idealised away). -/
def pyRoundHalfEven (x : ℚ) : ℤ :=
  if x - ⌊x⌋ < 1/2 then ⌊x⌋
  else if 1/2 < x - ⌊x⌋ then ⌊x⌋ + 1
  else if ⌊x⌋ % 2 = 0 then ⌊x⌋ else ⌊x⌋ + 1

/-- Python `round(x, 2)`: round half-to-even at two decimal places. -/
def round2 (x : ℚ) : ℚ :=
  (pyRoundHalfEven (x * 100) : ℚ) / 100

/-- Embedding of `_generate_sample_trade`.  The random draws are passed in:
`symIdx`, `sideIdx`, `statusIdx` are the indices picked by random.choice
from the symbol set and the two enumerations, `q` is the value returned by
randint(100, 1000), `u` the value returned by uniform(50, 500) before
rounding, and `ts` the string datetime.now().isoformat() produced. -/
def generateSampleTrade (symIdx : Fin 5) (sideIdx : Fin 2) (statusIdx : Fin 3)
    (q : ℤ) (u : ℚ) (ts : String) : Candidate :=
  { symbol := some (.vstr (VALID_SYMBOLS.getD symIdx.val "")),
    side := some (.vstr (TRADE_SIDE_VALUES.getD sideIdx.val "")),
    quantity := some (.vint q),
    price := some (.vfloat (round2 u)),
    timestamp := some (.vstr ts),
    status := some (.vstr (TRADE_STATUS_VALUES.getD statusIdx.val "")),
    source := some (.vstr "simulation"),
    trade_id := Option.none }

/-- Embedding of `_fetch_from_api`.  `success` is whether the draw
random.random() was below 0.3; on success the generated candidate has its
`source` overwritten with DataSource.API.value, otherwise None is
returned. -/
def fetchFromApi (success : Bool) (symIdx : Fin 5) (sideIdx : Fin 2)
    (statusIdx : Fin 3) (q : ℤ) (u : ℚ) (ts : String) : Option Candidate :=
  if success then
    some { generateSampleTrade symIdx sideIdx statusIdx q u ts with
           source := some (.vstr "api") }
  else Option.none

/-! Spec-side predicates.  These are written from the wording of spec
sections 4.1 and 8, to be compared with `validateTrade`, which is the
code-side embedding. -/

/-- Spec wording "quantity ≤ 0" / "price ≤ 0": the value is a number that is
not positive (Python bools count as the ints 1 and 0). -/
def valNonposB : PyValue → Bool
  | .vint n => decide (n ≤ 0)
  | .vfloat q => decide (q ≤ 0)
  | .vbool b => !b
  | _ => false

/-- Spec wording "a positive integer (> 0)" (a Python bool is an int). -/
def valPosIntB : PyValue → Bool
  | .vint n => decide (0 < n)
  | .vbool b => b
  | _ => false

/-- Spec wording "a positive real number (> 0)". -/
def valPosNumB : PyValue → Bool
  | .vint n => decide (0 < n)
  | .vfloat q => decide (0 < q)
  | .vbool b => b
  | _ => false

/-- The value is numeric (int, float or bool), so Python can compare it with
0 without raising. -/
def isNumericB : PyValue → Bool
  | .vint _ => true
  | .vfloat _ => true
  | .vbool _ => true
  | _ => false

/-- The field, when present, holds a numeric value (the typing the spec's
data model gives quantity and price). -/
def fieldNumeric (field : Option PyValue) : Bool :=
  match field with
  | Option.none => true
  | some v => isNumericB v

/-- Spec section 8, negative direction: "quantity ≤ 0, price ≤ 0, symbol not
in the allow-list, side/status outside their enumerations, or any required
field missing". -/
def specRuleViolatedB (c : Candidate) : Bool :=
  (match c.quantity with | some v => valNonposB v | Option.none => false)
  || (match c.price with | some v => valNonposB v | Option.none => false)
  || (match c.symbol with
      | some v => !(pyMemStr v VALID_SYMBOLS) | Option.none => false)
  || (match c.side with
      | some v => !(pyMemStr v TRADE_SIDE_VALUES) | Option.none => false)
  || (match c.status with
      | some v => !(pyMemStr v TRADE_STATUS_VALUES) | Option.none => false)
  || c.quantity.isNone || c.price.isNone || c.symbol.isNone || c.side.isNone
  || c.status.isNone || c.timestamp.isNone || c.source.isNone

/-- Spec section 4.1, positive direction: every rule holds (quantity a
positive integer, price a positive real, symbol in the allow-list, side and
status in their enumerations, timestamp and source present). -/
def specSatisfiesB (c : Candidate) : Bool :=
  (match c.quantity with | some v => valPosIntB v | Option.none => false)
  && (match c.price with | some v => valPosNumB v | Option.none => false)
  && fieldInList c.symbol VALID_SYMBOLS
  && fieldInList c.side TRADE_SIDE_VALUES
  && fieldInList c.status TRADE_STATUS_VALUES
  && c.timestamp.isSome && c.source.isSome

/-- The assigned integer ID of a record, 0 when none was assigned. -/
def getId (r : Candidate) : ℤ :=
  match r.trade_id with
  | some (.vint n) => n
  | _ => 0

/-- The record exposes every field of the queue consumer contract: id,
symbol, side, quantity, price, timestamp, status, source. -/
def recordComplete (r : Candidate) : Prop :=
  r.trade_id.isSome ∧ r.symbol.isSome ∧ r.side.isSome ∧ r.quantity.isSome ∧
  r.price.isSome ∧ r.timestamp.isSome ∧ r.status.isSome ∧ r.source.isSome

/-- Invariant maintained by the producer loop: the counter is nonnegative,
every queued record passed validation and carries an integer ID in
[1, counter], and IDs strictly increase along the queue. -/
def QueueInv (s : ServiceState) : Prop :=
  0 ≤ s.trade_id_counter ∧
  (∀ r ∈ s.trade_queue,
      validateTrade r = .ok true ∧ r.trade_id = some (.vint (getId r)) ∧
      1 ≤ getId r ∧ getId r ≤ s.trade_id_counter) ∧
  s.trade_queue.Pairwise (fun a b => getId a < getId b)

example : validateTrade
    { symbol := some (.vstr "AAPL"), side := some (.vstr "Buy"),
      quantity := some (.vint 500), price := some (.vfloat 100),
      timestamp := some (.vstr "2026-01-01T00:00:00"),
      status := some (.vstr "Filled"),
      source := some (.vstr "simulation") } = .ok true := by rfl

example : validateTrade
    { symbol := some (.vstr "AAPL"), side := some (.vstr "Buy"),
      quantity := some (.vint (-5)), price := some (.vfloat 100),
      timestamp := some (.vstr "t"), status := some (.vstr "Filled"),
      source := some (.vstr "simulation") } = .ok false := by rfl

example : validateTrade { quantity := some (.vstr "oops") } =
    .error "TypeError" := by rfl

lemma valNonposB_pyLeZero {v : PyValue} (h : valNonposB v = true) :
    pyLeZero v = .ok true := by
  cases v <;> simp_all [valNonposB, pyLeZero]

lemma valPosIntB_pyLeZero {v : PyValue} (h : valPosIntB v = true) :
    pyLeZero v = .ok false := by
  cases v <;> simp_all [valPosIntB, pyLeZero]

lemma valPosNumB_pyLeZero {v : PyValue} (h : valPosNumB v = true) :
    pyLeZero v = .ok false := by
  cases v <;> simp_all [valPosNumB, pyLeZero]

lemma fieldNumeric_checkNonposE {f : Option PyValue}
    (h : fieldNumeric f = true) :
    checkNonposE f = .ok true ∨ checkNonposE f = .ok false := by
  rcases f with _ | v
  · exact Or.inl rfl
  · cases v <;> simp_all [fieldNumeric, isNumericB, checkNonposE, pyLeZero]
    · omega
    · exact le_or_lt _ 0

/-- Characterisation of `_validate_trade` returning True: every sequential
check passes. -/
lemma validateTrade_ok_true_iff (c : Candidate) :
    validateTrade c = .ok true ↔
      checkNonposE c.quantity = .ok false ∧ checkNonposE c.price = .ok false ∧
      fieldInList c.symbol VALID_SYMBOLS = true ∧
      fieldInList c.side TRADE_SIDE_VALUES = true ∧
      fieldInList c.status TRADE_STATUS_VALUES = true ∧
      c.timestamp.isNone = false ∧ c.source.isNone = false := by
  unfold validateTrade
  rcases hq : checkNonposE c.quantity with e | bq
  · simp
  · cases bq
    · rcases hp : checkNonposE c.price with e | bp
      · simp
      · cases bp
        · split_ifs with h1 h2 h3 h4 h5 <;>
            simp_all [Bool.not_eq_true, Option.isNone_eq_false_iff,
              Option.isSome_iff_ne_none]
        · simp
    · simp

lemma valNonposB_eq_true_iff (v : PyValue) :
    valNonposB v = true ↔ pyLeZero v = .ok true := by
  cases v <;> simp [valNonposB, pyLeZero]

/-- When quantity and price hold numeric values (or are absent), no
comparison raises, so `_validate_trade` returns a boolean. -/
lemma validateTrade_no_error (c : Candidate)
    (hq : fieldNumeric c.quantity = true) (hp : fieldNumeric c.price = true) :
    validateTrade c = .ok false ∨ validateTrade c = .ok true := by
  rcases fieldNumeric_checkNonposE hq with h1 | h1
  · left; unfold validateTrade; rw [h1]
  · rcases fieldNumeric_checkNonposE hp with h2 | h2
    · left; unfold validateTrade; rw [h1, h2]
    · unfold validateTrade; rw [h1, h2]
      split_ifs <;> simp

/-- C1 counterexample: the candidate with quantity 5, price the malformed
string "oops", and every other required field missing is in the claim's
violation class (required fields missing — `specRuleViolatedB` holds), yet
`_validate_trade` does not return False on it: the quantity check passes
(5 > 0) and the comparison `'oops' <= 0` raises TypeError. -/
theorem c1_counterexample_violating_candidate_raises :
    specRuleViolatedB
      { quantity := some (.vint 5), price := some (.vstr "oops") } = true ∧
    validateTrade
      { quantity := some (.vint 5), price := some (.vstr "oops") }
      = .error "TypeError" ∧
    validateTrade
      { quantity := some (.vint 5), price := some (.vstr "oops") }
      ≠ .ok false :=
  ⟨rfl, rfl, fun h => Except.noConfusion
    (h : (Except.error "TypeError" : Except String Bool) = Except.ok false)⟩

/-- C1 (amended): for every candidate whose quantity and price fields, when
present, hold numeric values: if quantity ≤ 0, price ≤ 0, the symbol is not
in the allow-list, side or status is outside its enumeration, or a required
field is missing, `_validate_trade` returns False; and for every candidate
satisfying all rules of spec section 4.1 it returns True.  (A violating
candidate whose quantity or price holds a non-numeric value instead makes
`_validate_trade` raise TypeError, as the counterexample shows.) -/
theorem c1_validate_agrees_with_spec (c : Candidate)
    (hq : fieldNumeric c.quantity = true) (hp : fieldNumeric c.price = true) :
    (specRuleViolatedB c = true → validateTrade c = .ok false) ∧
    (specSatisfiesB c = true → validateTrade c = .ok true) := by
  constructor
  · intro hviol
    rcases validateTrade_no_error c hq hp with hok | hok
    · exact hok
    exfalso
    rw [validateTrade_ok_true_iff] at hok
    obtain ⟨h1, h2, h3, h4, h5, h6, h7⟩ := hok
    rcases hcq : c.quantity with _ | vq
    · rw [hcq] at h1; simp [checkNonposE] at h1
    rcases hcp : c.price with _ | vp
    · rw [hcp] at h2; simp [checkNonposE] at h2
    rcases hcs : c.symbol with _ | vs
    · rw [hcs] at h3; simp [fieldInList] at h3
    rcases hcsd : c.side with _ | vsd
    · rw [hcsd] at h4; simp [fieldInList] at h4
    rcases hcst : c.status with _ | vst
    · rw [hcst] at h5; simp [fieldInList] at h5
    rw [hcq] at h1; rw [hcp] at h2
    simp only [checkNonposE] at h1 h2
    rw [hcs] at h3; rw [hcsd] at h4; rw [hcst] at h5
    simp only [fieldInList] at h3 h4 h5
    simp_all [specRuleViolatedB, valNonposB_eq_true_iff]
  · intro hsat
    simp only [specSatisfiesB, Bool.and_eq_true] at hsat
    obtain ⟨⟨⟨⟨⟨⟨g1, g2⟩, g3⟩, g4⟩, g5⟩, g6⟩, g7⟩ := hsat
    rw [validateTrade_ok_true_iff]
    rcases hcq : c.quantity with _ | vq
    · rw [hcq] at g1; cases g1
    rcases hcp : c.price with _ | vp
    · rw [hcp] at g2; cases g2
    rw [hcq] at g1; rw [hcp] at g2
    refine ⟨valPosIntB_pyLeZero (by exact g1), valPosNumB_pyLeZero (by exact g2),
      g3, g4, g5, ?_, ?_⟩
    · simp [Option.isNone_eq_false_iff, Option.isSome_iff_ne_none] at g6 ⊢
      exact g6
    · simp [Option.isNone_eq_false_iff, Option.isSome_iff_ne_none] at g7 ⊢
      exact g7

lemma pyRoundHalfEven_bounds (x : ℚ) :
    x - 1/2 ≤ (pyRoundHalfEven x : ℚ) ∧ (pyRoundHalfEven x : ℚ) ≤ x + 1/2 := by
  have h1 : (⌊x⌋ : ℚ) ≤ x := Int.floor_le x
  have h2 : x < ⌊x⌋ + 1 := Int.lt_floor_add_one x
  unfold pyRoundHalfEven
  split_ifs with ha hb hc <;> push_cast <;> constructor <;> linarith

lemma round2_bounds {u : ℚ} (h1 : 50 ≤ u) (h2 : u ≤ 500) :
    50 ≤ round2 u ∧ round2 u ≤ 500 := by
  obtain ⟨hl, hr⟩ := pyRoundHalfEven_bounds (u * 100)
  have hlo : (5000 : ℤ) ≤ pyRoundHalfEven (u * 100) := by
    have hq : (4999 : ℚ) < (pyRoundHalfEven (u * 100) : ℚ) := by linarith
    exact_mod_cast hq
  have hhi : pyRoundHalfEven (u * 100) ≤ (50000 : ℤ) := by
    have hq : (pyRoundHalfEven (u * 100) : ℚ) < 50001 := by linarith
    have : pyRoundHalfEven (u * 100) < (50001 : ℤ) := by exact_mod_cast hq
    omega
  unfold round2
  constructor
  · rw [le_div_iff₀ (by norm_num : (0 : ℚ) < 100)]
    calc (50 : ℚ) * 100 = 5000 := by norm_num
    _ ≤ _ := by exact_mod_cast hlo
  · rw [div_le_iff₀ (by norm_num : (0 : ℚ) < 100)]
    calc (pyRoundHalfEven (u * 100) : ℚ) ≤ 50000 := by exact_mod_cast hhi
    _ = 500 * 100 := by norm_num

/-- Assigning `trade_id` does not change what `_validate_trade` reads. -/
lemma validateTrade_stampId (c : Candidate) (n : ℤ) :
    validateTrade (stampId c n) = validateTrade c := rfl

/-- The stamped record carries exactly the assigned ID. -/
lemma getId_stampId (c : Candidate) (n : ℤ) : getId (stampId c n) = n := rfl

lemma trade_id_stampId (c : Candidate) (n : ℤ) :
    (stampId c n).trade_id = some (.vint n) := rfl

/-- A record that validated True and carries an ID exposes every consumer
contract field. -/
lemma recordComplete_of_valid {r : Candidate}
    (hv : validateTrade r = .ok true) (hid : r.trade_id.isSome) :
    recordComplete r := by
  rw [validateTrade_ok_true_iff] at hv
  obtain ⟨h1, h2, h3, h4, h5, h6, h7⟩ := hv
  refine ⟨hid, ?_, ?_, ?_, ?_, ?_, ?_, ?_⟩
  · rcases h : r.symbol with _ | v
    · rw [h] at h3; simp [fieldInList] at h3
    · rfl
  · rcases h : r.side with _ | v
    · rw [h] at h4; simp [fieldInList] at h4
    · rfl
  · rcases h : r.quantity with _ | v
    · rw [h] at h1; simp [checkNonposE] at h1
    · rfl
  · rcases h : r.price with _ | v
    · rw [h] at h2; simp [checkNonposE] at h2
    · rfl
  · simp [Option.isNone_eq_false_iff, Option.isSome_iff_ne_none] at h6
    simpa [Option.isSome_iff_ne_none] using h6
  · rcases h : r.status with _ | v
    · rw [h] at h5; simp [fieldInList] at h5
    · rfl
  · simp [Option.isNone_eq_false_iff, Option.isSome_iff_ne_none] at h7
    simpa [Option.isSome_iff_ne_none] using h7

/-- One producer-loop iteration either enqueues exactly one freshly stamped
record and bumps the counter by one, or leaves the whole state unchanged. -/
lemma producerStep_cases (s : ServiceState) (inp : LoopInput) :
    (∃ c, validateTrade c = .ok true ∧
       producerStep s inp =
         { s with trade_id_counter := s.trade_id_counter + 1,
                  trade_queue := s.trade_queue ++
                    [stampId c (s.trade_id_counter + 1)] }) ∨
    producerStep s inp = s := by
  unfold producerStep
  split
  · exact Or.inr rfl
  · split
    · unfold processCandidate
      split
      · rename_i hv
        exact Or.inl ⟨_, hv, rfl⟩
      · exact Or.inr rfl
      · exact Or.inr rfl
    · unfold processCandidate
      split
      · rename_i hv
        exact Or.inl ⟨_, hv, rfl⟩
      · exact Or.inr rfl
      · exact Or.inr rfl
    · exact Or.inr rfl
    · exact Or.inr rfl

/-- QueueInv is preserved by one iteration of the producer loop. -/
lemma producerStep_queueInv {s : ServiceState} (inp : LoopInput)
    (h : QueueInv s) : QueueInv (producerStep s inp) := by
  rcases producerStep_cases s inp with ⟨c, hv, heq⟩ | heq
  · rw [heq]
    obtain ⟨hc, hmem, hpw⟩ := h
    unfold QueueInv
    dsimp only
    refine ⟨by omega, ?_, ?_⟩
    · intro r hr
      rcases List.mem_append.mp hr with hold | hnew
      · obtain ⟨g1, g2, g3, g4⟩ := hmem r hold
        exact ⟨g1, g2, g3, by omega⟩
      · rcases List.mem_singleton.mp hnew with rfl
        refine ⟨by rw [validateTrade_stampId]; exact hv, ?_, ?_, ?_⟩
        · rw [getId_stampId]; exact trade_id_stampId c _
        · rw [getId_stampId]; omega
        · rw [getId_stampId]
    · rw [List.pairwise_append]
      refine ⟨hpw, List.pairwise_singleton _ _, ?_⟩
      intro a ha b hb
      rcases List.mem_singleton.mp hb with rfl
      obtain ⟨-, -, -, g4⟩ := hmem a ha
      rw [getId_stampId]
      omega
  · rw [heq]; exact h

/-- QueueInv is preserved by any sequence of producer-loop iterations. -/
lemma producerRun_queueInv (inputs : List LoopInput) :
    ∀ s : ServiceState, QueueInv s → QueueInv (producerRun s inputs) := by
  induction inputs with
  | nil => intro s h; exact h
  | cons i is ih =>
    intro s h
    exact ih (producerStep s i) (producerStep_queueInv i h)

/-- Running the simulation-mode loop on candidates that all validate appends
one record per candidate, with IDs counting on from the current counter. -/
lemma producerRun_sim_valid_ids (cs : List Candidate) :
    ∀ s : ServiceState, s.runningFlag = true →
      s.data_source = DataSource.SIMULATION →
      (∀ c ∈ cs, validateTrade c = .ok true) →
      (producerRun s (cs.map LoopInput.sim)).trade_queue.map
          (fun r => r.trade_id)
        = s.trade_queue.map (fun r => r.trade_id)
          ++ (List.range cs.length).map
               (fun i : ℕ =>
                 some (PyValue.vint (s.trade_id_counter + (i : ℤ) + 1))) ∧
      (producerRun s (cs.map LoopInput.sim)).trade_id_counter
        = s.trade_id_counter + cs.length := by
  induction cs with
  | nil => intro s hr hd hv; simp [producerRun]
  | cons c cs ih =>
    intro s hr hd hv
    have hc : validateTrade c = .ok true := hv c (List.mem_cons_self c cs)
    have hstep : producerStep s (LoopInput.sim c)
        = { s with trade_id_counter := s.trade_id_counter + 1,
                   trade_queue := s.trade_queue ++
                     [stampId c (s.trade_id_counter + 1)] } := by
      simp [producerStep, processCandidate, hr, hd, hc]
    have hrun : (producerRun s ((c :: cs).map LoopInput.sim))
        = producerRun (producerStep s (LoopInput.sim c))
            (cs.map LoopInput.sim) := rfl
    rw [hrun, hstep]
    obtain ⟨h1, h2⟩ := ih
      { s with trade_id_counter := s.trade_id_counter + 1,
               trade_queue := s.trade_queue ++
                 [stampId c (s.trade_id_counter + 1)] }
      (by simpa using hr) (by simpa using hd)
      (fun c2 hc2 => hv c2 (List.mem_cons_of_mem c hc2))
    rw [h1, h2]
    dsimp only
    constructor
    · rw [List.map_append, List.append_assoc]
      congr 1
      rw [List.length_cons, List.range_succ_eq_map]
      simp only [List.map_cons, List.map_map, List.map_nil,
        List.singleton_append]
      congr 1
      · simp [stampId]
      · apply List.map_congr_left
        intro i hi
        simp only [Function.comp_apply, Option.some.injEq, PyValue.vint.injEq]
        push_cast
        ring
    · rw [List.length_cons]
      push_cast
      ring

/-- C2: starting from a freshly constructed service, N consecutive
producer-loop iterations whose candidates all pass validation enqueue
records whose IDs are exactly the sequence 1..N in queue order (strictly
increasing, no duplicates, no gaps; in particular the first ID assigned is
1). -/
theorem c2_ids_one_to_n (cs : List Candidate)
    (hv : ∀ c ∈ cs, validateTrade c = .ok true) :
    (producerRun (start (initService [])) (cs.map LoopInput.sim)).trade_queue.map
        (fun r => r.trade_id)
      = (List.range cs.length).map
          (fun i : ℕ => some (PyValue.vint ((i : ℤ) + 1))) := by
  have h := (producerRun_sim_valid_ids cs (start (initService []))
      rfl rfl hv).1
  simpa [start, initService] using h

/-- Witness for C2 at two concrete valid candidates: the queue IDs come out
as [1, 2]. -/
theorem c2_ids_one_to_n_witness :
    (producerRun (start (initService []))
        ([{ symbol := some (.vstr "AAPL"), side := some (.vstr "Buy"),
            quantity := some (.vint 500), price := some (.vfloat 100),
            timestamp := some (.vstr "t1"), status := some (.vstr "Filled"),
            source := some (.vstr "simulation") },
          { symbol := some (.vstr "TSLA"), side := some (.vstr "Sell"),
            quantity := some (.vint 10), price := some (.vint 7),
            timestamp := some (.vstr "t2"), status := some (.vstr "Partial"),
            source := some (.vstr "simulation") }].map LoopInput.sim)).trade_queue.map
        (fun r => r.trade_id)
      = [some (PyValue.vint 1), some (PyValue.vint 2)] := by
  rw [c2_ids_one_to_n]
  · rfl
  · intro c hc
    simp only [List.mem_cons, List.not_mem_nil, or_false] at hc
    rcases hc with rfl | rfl
    · rfl
    · rfl

/-- C3: every record the producer loop puts on the queue has passed
`_validate_trade` and carries a unique assigned ID, so every item a consumer
dequeues has all required fields (id, symbol, side, quantity, price,
timestamp, status, source) and a valid (positive) ID; no half-constructed
record is ever observable in the queue. -/
theorem c3_queue_holds_only_validated_records (inputs : List LoopInput) :
    (∀ r ∈ (producerRun (start (initService [])) inputs).trade_queue,
        validateTrade r = .ok true ∧ recordComplete r ∧
        ∃ n : ℤ, r.trade_id = some (.vint n) ∧ 1 ≤ n) ∧
    (producerRun (start (initService [])) inputs).trade_queue.Pairwise
      (fun a b => a.trade_id ≠ b.trade_id) := by
  have hinv : QueueInv (start (initService [])) := by
    refine ⟨?_, ?_, ?_⟩
    · norm_num [start, initService]
    · intro r hr
      simp [start, initService] at hr
    · simp [start, initService]
  obtain ⟨hc, hmem, hpw⟩ := producerRun_queueInv inputs _ hinv
  constructor
  · intro r hr
    obtain ⟨g1, g2, g3, g4⟩ := hmem r hr
    exact ⟨g1, recordComplete_of_valid g1 (by rw [g2]; rfl),
      getId r, g2, g3⟩
  · refine hpw.imp_of_mem ?_
    intro a b ha hb hlt
    obtain ⟨-, ga, -, -⟩ := hmem a ha
    obtain ⟨-, gb, -, -⟩ := hmem b hb
    rw [ga, gb]
    intro hcontra
    simp only [Option.some.injEq, PyValue.vint.injEq] at hcontra
    omega

/-- C4 (code-bug evidence): constructing the service with a supplied queue
uses exactly that instance, but constructing it with no queue argument
raises AttributeError instead of creating a service-owned queue, because
the `queue` parameter shadows the `queue` module in
`queue if queue else queue.Queue()`. -/
theorem c4_construction_shadowed_queue :
    serviceNew Option.none
      = .error "AttributeError: NoneType has no attribute Queue" ∧
    ∀ q : List Candidate,
      serviceNew (some q) = .ok (initService q) ∧
      (initService q).trade_queue = q :=
  ⟨rfl, fun _ => ⟨rfl, rfl⟩⟩

/-- C5 counterexample: a candidate whose quantity holds a malformed string
value makes `_validate_trade` raise TypeError (the comparison
`'oops' <= 0`) instead of returning a boolean, refuting the claim that it
never raises on malformed input. -/
theorem c5_counterexample_validate_raises :
    validateTrade { quantity := some (.vstr "oops") } =
      .error "TypeError" := rfl

/-- C5 (amended): for every candidate whose quantity and price fields, when
present, hold numeric values, `_validate_trade` returns a boolean and does
not raise; a non-numeric quantity or price raises TypeError, which is
caught at the producer-loop boundary, not inside the validator. -/
theorem c5_validate_returns_bool_on_numeric (c : Candidate)
    (hq : fieldNumeric c.quantity = true)
    (hp : fieldNumeric c.price = true) :
    ∃ b : Bool, validateTrade c = .ok b := by
  rcases validateTrade_no_error c hq hp with h | h
  · exact ⟨false, h⟩
  · exact ⟨true, h⟩

/-- Witness for the amended C5 at the fully empty candidate. -/
theorem c5_validate_returns_bool_on_numeric_witness :
    ∃ b : Bool, validateTrade { } = .ok b :=
  c5_validate_returns_bool_on_numeric { } rfl rfl

/-- C6 counterexample: a candidate whose quantity is the positive
non-integer 2.5, with every other field valid, is accepted by
`_validate_trade` (returns True): the code checks only `quantity <= 0` and
never integrality, so the claim that such a candidate is rejected fails. -/
theorem c6_counterexample_noninteger_quantity_accepted :
    validateTrade
      { symbol := some (.vstr "AAPL"), side := some (.vstr "Buy"),
        quantity := some (.vfloat (5/2)), price := some (.vfloat 100),
        timestamp := some (.vstr "t"), status := some (.vstr "Filled"),
        source := some (.vstr "simulation") } = .ok true := by
  rw [validateTrade_ok_true_iff]
  refine ⟨?_, ?_, rfl, rfl, rfl, rfl, rfl⟩
  · show pyLeZero (.vfloat (5/2)) = .ok false
    simp only [pyLeZero, Except.ok.injEq, decide_eq_false_iff_not]
    norm_num
  · show pyLeZero (.vfloat 100) = .ok false
    simp only [pyLeZero, Except.ok.injEq, decide_eq_false_iff_not]
    norm_num

/-- C6 (amended): when the quantity field is present with a numeric value
that is not positive, `_validate_trade` returns False; integrality is not
checked, so a positive non-integer quantity passes the quantity rule. -/
theorem c6_nonpositive_quantity_rejected (c : Candidate) (v : PyValue)
    (hq : c.quantity = some v) (hv : valNonposB v = true) :
    validateTrade c = .ok false := by
  unfold validateTrade
  rw [hq]
  show (match pyLeZero v with
    | .error e => Except.error e
    | .ok true => Except.ok false
    | .ok false => _) = Except.ok false
  rw [valNonposB_eq_true_iff] at hv
  rw [hv]

/-- Witness for the amended C6 at quantity 0. -/
theorem c6_nonpositive_quantity_rejected_witness :
    validateTrade { quantity := some (.vint 0) } = .ok false :=
  c6_nonpositive_quantity_rejected { quantity := some (.vint 0) }
    (.vint 0) rfl rfl

/-- C7: a producer-loop iteration whose candidate fails validation discards
it without raising — the ID counter, the queue, and the whole service state
are unchanged and the loop continues. -/
theorem c7_rejection_leaves_state_unchanged (s : ServiceState)
    (c : Candidate) (hr : s.runningFlag = true)
    (hd : s.data_source = DataSource.SIMULATION)
    (hv : validateTrade c = .ok false) :
    producerStep s (LoopInput.sim c) = s := by
  simp [producerStep, processCandidate, hr, hd, hv]

/-- Witness for C7: injecting a candidate with quantity = -5 into a running
simulation-mode service changes nothing. -/
theorem c7_rejection_leaves_state_unchanged_witness :
    producerStep (start (initService []))
        (LoopInput.sim
          { symbol := some (.vstr "AAPL"), side := some (.vstr "Buy"),
            quantity := some (.vint (-5)), price := some (.vfloat 100),
            timestamp := some (.vstr "t"), status := some (.vstr "Filled"),
            source := some (.vstr "simulation") })
      = start (initService []) :=
  c7_rejection_leaves_state_unchanged _ _ rfl rfl rfl

/-- C8: `start` while a worker is active is a no-op (no state change, no
second worker launched); `stop` while stopped — including on a freshly
constructed service, before any `start`, and twice in a row — changes
nothing, never raises, and leaves the service in the stopped state. -/
theorem c8_lifecycle_idempotence :
    (∀ s : ServiceState, s.workerActive = true → start s = s) ∧
    (∀ s : ServiceState, serviceStopped s → stop s = s) ∧
    (∀ s : ServiceState, serviceStopped (stop s)) ∧
    (∀ q : List Candidate, serviceStopped (initService q)) := by
  refine ⟨?_, ?_, ?_, ?_⟩
  · intro s h
    simp [start, h]
  · intro s h
    obtain ⟨h1, h2⟩ := h
    cases s
    simp_all [stop]
  · intro s
    exact ⟨rfl, rfl⟩
  · intro q
    exact ⟨rfl, rfl⟩

/-- Witness for C8: a running service is unchanged by `start`, and a fresh
service is unchanged by `stop`. -/
theorem c8_lifecycle_idempotence_witness :
    start { trade_queue := [], runningFlag := true, workerActive := true,
            trade_id_counter := 3, data_source := DataSource.SIMULATION,
            spawnCount := 1 }
      = { trade_queue := [], runningFlag := true, workerActive := true,
          trade_id_counter := 3, data_source := DataSource.SIMULATION,
          spawnCount := 1 } ∧
    stop (initService []) = initService [] :=
  ⟨c8_lifecycle_idempotence.1 _ rfl,
   c8_lifecycle_idempotence.2.1 _ ⟨rfl, rfl⟩⟩

/-- Witness for C1: a concrete spec-satisfying candidate validates True and
a concrete rule-violating candidate (symbol outside the allow-list)
validates False. -/
theorem c1_validate_agrees_with_spec_witness :
    validateTrade
      { symbol := some (.vstr "AAPL"), side := some (.vstr "Buy"),
        quantity := some (.vint 500), price := some (.vfloat 100),
        timestamp := some (.vstr "t"), status := some (.vstr "Filled"),
        source := some (.vstr "simulation") } = .ok true ∧
    validateTrade
      { symbol := some (.vstr "ENRON"), side := some (.vstr "Buy"),
        quantity := some (.vint 500), price := some (.vfloat 100),
        timestamp := some (.vstr "t"), status := some (.vstr "Filled"),
        source := some (.vstr "simulation") } = .ok false :=
  ⟨(c1_validate_agrees_with_spec
      { symbol := some (.vstr "AAPL"), side := some (.vstr "Buy"),
        quantity := some (.vint 500), price := some (.vfloat 100),
        timestamp := some (.vstr "t"), status := some (.vstr "Filled"),
        source := some (.vstr "simulation") } rfl rfl).2 rfl,
   (c1_validate_agrees_with_spec
      { symbol := some (.vstr "ENRON"), side := some (.vstr "Buy"),
        quantity := some (.vint 500), price := some (.vfloat 100),
        timestamp := some (.vstr "t"), status := some (.vstr "Filled"),
        source := some (.vstr "simulation") } rfl rfl).1 rfl⟩

/-- C9: every candidate from the simulation generator has a symbol from the
allow-list, the integer quantity drawn by randint(100, 1000), a price in
[50, 500] equal to the uniform(50, 500) draw rounded to 2 decimals, side,
status, timestamp present and source = "simulation", and passes
`_validate_trade`; a successful API fetch returns that candidate re-tagged
source = "api", which also passes `_validate_trade`; an unsuccessful API
fetch returns None rather than raising. -/
theorem c9_source_adapters_produce_valid_candidates
    (symIdx : Fin 5) (sideIdx : Fin 2) (statusIdx : Fin 3)
    (q : ℤ) (u : ℚ) (ts : String)
    (hq1 : 100 ≤ q) (hq2 : q ≤ 1000) (hu1 : 50 ≤ u) (hu2 : u ≤ 500) :
    (∃ sym, (generateSampleTrade symIdx sideIdx statusIdx q u ts).symbol
        = some (.vstr sym) ∧ sym ∈ VALID_SYMBOLS) ∧
    (generateSampleTrade symIdx sideIdx statusIdx q u ts).quantity
      = some (.vint q) ∧ 100 ≤ q ∧ q ≤ 1000 ∧
    (∃ p : ℚ, (generateSampleTrade symIdx sideIdx statusIdx q u ts).price
        = some (.vfloat p) ∧ p = round2 u ∧ 50 ≤ p ∧ p ≤ 500) ∧
    (generateSampleTrade symIdx sideIdx statusIdx q u ts).side.isSome
      = true ∧
    (generateSampleTrade symIdx sideIdx statusIdx q u ts).status.isSome
      = true ∧
    (generateSampleTrade symIdx sideIdx statusIdx q u ts).timestamp
      = some (.vstr ts) ∧
    (generateSampleTrade symIdx sideIdx statusIdx q u ts).source
      = some (.vstr "simulation") ∧
    validateTrade (generateSampleTrade symIdx sideIdx statusIdx q u ts)
      = .ok true ∧
    (∃ r, fetchFromApi true symIdx sideIdx statusIdx q u ts = some r ∧
        r.source = some (.vstr "api") ∧ validateTrade r = .ok true) ∧
    fetchFromApi false symIdx sideIdx statusIdx q u ts = Option.none := by
  have hsymbol : fieldInList
      (generateSampleTrade symIdx sideIdx statusIdx q u ts).symbol
      VALID_SYMBOLS = true := by
    fin_cases symIdx <;> rfl
  have hside : fieldInList
      (generateSampleTrade symIdx sideIdx statusIdx q u ts).side
      TRADE_SIDE_VALUES = true := by
    fin_cases sideIdx <;> rfl
  have hstatus : fieldInList
      (generateSampleTrade symIdx sideIdx statusIdx q u ts).status
      TRADE_STATUS_VALUES = true := by
    fin_cases statusIdx <;> rfl
  have hquant : checkNonposE
      (generateSampleTrade symIdx sideIdx statusIdx q u ts).quantity
      = .ok false := by
    show pyLeZero (.vint q) = .ok false
    simp only [pyLeZero, Except.ok.injEq, decide_eq_false_iff_not]
    omega
  have hp50 : 50 ≤ round2 u := (round2_bounds hu1 hu2).1
  have hp500 : round2 u ≤ 500 := (round2_bounds hu1 hu2).2
  have hprice : checkNonposE
      (generateSampleTrade symIdx sideIdx statusIdx q u ts).price
      = .ok false := by
    show pyLeZero (.vfloat (round2 u)) = .ok false
    simp only [pyLeZero, Except.ok.injEq, decide_eq_false_iff_not]
    linarith
  have hval : validateTrade (generateSampleTrade symIdx sideIdx statusIdx q u ts)
      = .ok true := by
    rw [validateTrade_ok_true_iff]
    exact ⟨hquant, hprice, hsymbol, hside, hstatus, rfl, rfl⟩
  have hvalApi : validateTrade
      { generateSampleTrade symIdx sideIdx statusIdx q u ts with
        source := some (.vstr "api") } = .ok true := by
    rw [validateTrade_ok_true_iff]
    exact ⟨hquant, hprice, hsymbol, hside, hstatus, rfl, rfl⟩
  refine ⟨⟨VALID_SYMBOLS.getD symIdx.val "", rfl, ?_⟩, rfl, hq1, hq2,
    ⟨round2 u, rfl, rfl, hp50, hp500⟩, rfl, rfl, rfl, rfl, hval,
    ⟨_, rfl, rfl, hvalApi⟩, rfl⟩
  fin_cases symIdx <;> decide

/-- Witness for C9 at concrete draws (symbol AAPL, side Buy, status Filled,
quantity 500, uniform draw 123.456). -/
theorem c9_source_adapters_produce_valid_candidates_witness :
    (100 ≤ (500 : ℤ) ∧ (500 : ℤ) ≤ 1000 ∧
      50 ≤ (123456 / 1000 : ℚ) ∧ (123456 / 1000 : ℚ) ≤ 500) ∧
    validateTrade (generateSampleTrade 0 0 0 500 (123456 / 1000) "t")
      = .ok true ∧
    fetchFromApi false 0 0 0 500 (123456 / 1000) "t" = Option.none := by
  have h := c9_source_adapters_produce_valid_candidates 0 0 0 500
    (123456 / 1000) "t" (by norm_num) (by norm_num) (by norm_num)
    (by norm_num)
  obtain ⟨-, -, -, -, -, -, -, -, -, hval, -, hnone⟩ := h
  exact ⟨⟨by norm_num, by norm_num, by norm_num, by norm_num⟩, hval, hnone⟩

/-- C10: each producer-loop iteration is all-or-nothing on the shared state,
on every path and in every source mode: either the counter goes up by
exactly one and exactly one record is appended to the queue, or both are
unchanged; consequently, from a fresh start the counter always equals the
number of records ever enqueued. -/
theorem c10_iteration_atomicity :
    (∀ (s : ServiceState) (inp : LoopInput),
        ((producerStep s inp).trade_id_counter = s.trade_id_counter + 1 ∧
          ∃ r, (producerStep s inp).trade_queue = s.trade_queue ++ [r]) ∨
        ((producerStep s inp).trade_id_counter = s.trade_id_counter ∧
          (producerStep s inp).trade_queue = s.trade_queue)) ∧
    (∀ inputs : List LoopInput,
        (producerRun (start (initService [])) inputs).trade_id_counter
          = ((producerRun (start (initService []))
                inputs).trade_queue.length : ℤ)) := by
  have hstep : ∀ (s : ServiceState) (inp : LoopInput),
      ((producerStep s inp).trade_id_counter = s.trade_id_counter + 1 ∧
        ∃ r, (producerStep s inp).trade_queue = s.trade_queue ++ [r]) ∨
      ((producerStep s inp).trade_id_counter = s.trade_id_counter ∧
        (producerStep s inp).trade_queue = s.trade_queue) := by
    intro s inp
    rcases producerStep_cases s inp with ⟨c, hv, heq⟩ | heq
    · left
      rw [heq]
      exact ⟨rfl, stampId c (s.trade_id_counter + 1), rfl⟩
    · right
      rw [heq]
      exact ⟨rfl, rfl⟩
  refine ⟨hstep, ?_⟩
  have key : ∀ (inputs : List LoopInput) (s : ServiceState),
      s.trade_id_counter = (s.trade_queue.length : ℤ) →
      (producerRun s inputs).trade_id_counter
        = ((producerRun s inputs).trade_queue.length : ℤ) := by
    intro inputs
    induction inputs with
    | nil => intro s h; exact h
    | cons i is ih =>
      intro s h
      apply ih
      rcases hstep s i with ⟨h1, r, h2⟩ | ⟨h1, h2⟩
      · rw [h1, h2, List.length_append]
        simp only [List.length_singleton]
        push_cast
        omega
      · rw [h1, h2]
        exact h
  intro inputs
  exact key inputs _ (by simp [start, initService])

end TradeIngestion
